import Mathlib

/-!
Verification development for the ecfr-analyzer repository.

The Python source under app/ is shallowly embedded: pure text processing
becomes functions on lists of characters with exact rational arithmetic in
place of IEEE floats, HTTP clients become functions over an explicit stream
of responses, and the database becomes explicit record states threaded
through the functions.  Each definition is annotated with the source file
and function it embeds.
-/

namespace PyText

/-- Python str.isspace for the ASCII range (the characters the regular
expression class backslash-s matches): space, tab, newline, carriage
return, vertical tab, form feed.  All inputs exercised here are ASCII. -/
def pyIsSpace (c : Char) : Bool :=
  c = ' ' || c = '\t' || c = '\n' || c = '\x0d' || c = '\x0b' || c = '\x0c'

/-- Python str.isprintable restricted to the ASCII range: printable ASCII
characters are 0x20 (space) through 0x7e (tilde); control characters,
newlines and tabs are not printable. -/
def pyIsPrintable (c : Char) : Bool :=
  ' ' ≤ c && c ≤ '~'

/-- Python str.lower for the ASCII range. -/
def pyToLowerChar (c : Char) : Char :=
  if 'A' ≤ c && c ≤ 'Z' then Char.ofNat (c.toNat + 32) else c

/-- Lowercase a whole text (Python text.lower()). -/
def pyLower (l : List Char) : List Char :=
  l.map pyToLowerChar

/-- Python str.strip() with no argument: remove leading and trailing
whitespace. -/
def pyStrip (l : List Char) : List Char :=
  ((l.dropWhile pyIsSpace).reverse.dropWhile pyIsSpace).reverse

/-- Word characters of the regular expression class backslash-w in the
ASCII range: letters, digits and the underscore. -/
def isWordChar (c : Char) : Bool :=
  ('a' ≤ c && c ≤ 'z') || ('A' ≤ c && c ≤ 'Z') || ('0' ≤ c && c ≤ '9') || c = '_'

/-- Sentence-terminator characters of the class [.!?]. -/
def isTermChar (c : Char) : Bool :=
  c = '.' || c = '!' || c = '?'

/-- One right-to-left step of the maximal-run scan: the flag records
whether the character to the right belongs to a run. -/
def runStep (p : Char → Bool) (c : Char) : List (List Char) × Bool → List (List Char) × Bool
  | (runs, adj) =>
    if p c then
      if adj then
        match runs with
        | [] => ([[c]], true)
        | r :: rest => ((c :: r) :: rest, true)
      else ([c] :: runs, true)
    else (runs, false)

/-- Maximal runs of characters satisfying p, in order: the semantics of
re.findall with the pattern "p+" (and of backslash-b backslash-w+
backslash-b, whose word boundaries coincide with maximal runs). -/
def splitRuns (p : Char → Bool) (l : List Char) : List (List Char) :=
  (l.foldr (runStep p) ([], false)).1

/-- One right-to-left step of the segment scan: the flag records whether
the character to the right is a separator. -/
def segStep (p : Char → Bool) (c : Char) : List (List Char) × Bool → List (List Char) × Bool
  | (segs, rightSep) =>
    if p c then
      if rightSep then (segs, true) else ([] :: segs, true)
    else
      match segs with
      | [] => ([[c]], false)
      | s :: rest => ((c :: s) :: rest, false)

/-- Segments between maximal runs of characters satisfying p, keeping the
(possibly empty) segments at both ends: the semantics of re.split with
the pattern "p+". -/
def splitSegs (p : Char → Bool) (l : List Char) : List (List Char) :=
  (l.foldr (segStep p) ([[]], false)).1

end PyText

namespace ReadabilityAnalyzer
/-!
Embeds app/services/readability_analyzer.py.  Texts are lists of
characters; floating point arithmetic is idealised as exact rational
arithmetic.  The square root used by the SMOG index is passed in as a
function parameter, since the properties settled here hold for every
square-root function; the Python code instantiates it with math.sqrt.
-/

open PyText

/-- count_syllables (readability_analyzer.py lines 8-35): lowercase and
strip the word, strip one trailing "e", then count characters that are a
vowel not preceded by a vowel, with a floor of one. -/
def count_syllables (word : List Char) : Nat :=
  let w := pyStrip (pyLower word)
  if w = [] then 1
  else
    let w := if w.getLast? = some 'e' then w.dropLast else w
    max 1 (countGroups false w)
where
  /-- Character membership in the vowel string "aeiouy". -/
  isVowel (c : Char) : Bool :=
    c = 'a' || c = 'e' || c = 'i' || c = 'o' || c = 'u' || c = 'y'
  /-- Count positions holding a vowel whose predecessor is not a vowel;
  the flag records whether the previous character was a vowel. -/
  countGroups : Bool → List Char → Nat
    | _, [] => 0
    | prevVowel, c :: cs =>
      (if isVowel c && !prevVowel then 1 else 0) + countGroups (isVowel c) cs

/-- get_sentences (lines 37-42): split on runs of [.!?], strip each piece,
keep the non-empty pieces. -/
def get_sentences (text : List Char) : List (List Char) :=
  ((splitSegs isTermChar text).map pyStrip).filter (· ≠ [])

/-- get_words (lines 44-47): the maximal word-character runs of the
lowercased text. -/
def get_words (text : List Char) : List (List Char) :=
  splitRuns isWordChar (pyLower text)

/-- count_complex_words (lines 49-52): words with at least three
syllables. -/
def count_complex_words (words : List (List Char)) : Nat :=
  (words.filter (fun w => 3 ≤ count_syllables w)).length

/-- Total syllables over a word list (the sum in
compute_flesch_reading_ease line 66). -/
def total_syllables (words : List (List Char)) : Nat :=
  (words.map count_syllables).sum

/-- Python min on rationals. -/
def ratMin (a b : ℚ) : ℚ :=
  if a ≤ b then a else b

/-- Python max on rationals. -/
def ratMax (a b : ℚ) : ℚ :=
  if a ≤ b then b else a

/-- Clamp to the interval [0, 100]: max(0.0, min(100.0, score)). -/
def clamp01 (q : ℚ) : ℚ :=
  ratMax 0 (ratMin 100 q)

/-- compute_flesch_reading_ease (lines 54-71). -/
def compute_flesch_reading_ease (text : List Char) : ℚ :=
  let sentences := get_sentences text
  let words := get_words text
  if words = [] || sentences = [] then 0
  else
    let words_per_sentence : ℚ := (words.length : ℚ) / (sentences.length : ℚ)
    let syllables_per_word : ℚ := (total_syllables words : ℚ) / (words.length : ℚ)
    clamp01 (206.835 - (1.015 * words_per_sentence) - (84.6 * syllables_per_word))

/-- compute_smog_index (lines 73-90); sqrtFn abstracts math.sqrt. -/
def compute_smog_index (sqrtFn : ℚ → ℚ) (text : List Char) : ℚ :=
  let sentences := get_sentences text
  let words := get_words text
  if sentences.length < 30 || words = [] then 0
  else
    let complex_word_count := count_complex_words words
    let score := 1.0430 * sqrtFn ((complex_word_count : ℚ) * (30 / (sentences.length : ℚ))) + 3.1291
    clamp01 (100 - ((score - 6) * (100 / 14)))

/-- compute_ari (lines 92-109); characters is the count of non-whitespace
characters of the text. -/
def compute_ari (text : List Char) : ℚ :=
  let sentences := get_sentences text
  let words := get_words text
  let characters := (text.filter (fun c => !pyIsSpace c)).length
  if words = [] || sentences = [] then 0
  else
    let score := 4.71 * ((characters : ℚ) / (words.length : ℚ))
      + 0.5 * ((words.length : ℚ) / (sentences.length : ℚ)) - 21.43
    clamp01 (100 - ((score - 1) * (100 / 13)))

/-- The three sub-scores returned in the detailed-metrics dictionary of
compute_readability_score. -/
structure Metrics where
  flesch_reading_ease : ℚ
  smog_index : ℚ
  automated_readability_index : ℚ
  deriving Repr, DecidableEq

/-- compute_readability_score (lines 111-149): the combined weighted score
together with the individual metrics. -/
def compute_readability_score (sqrtFn : ℚ → ℚ) (text : List Char) : ℚ × Metrics :=
  if pyStrip text = [] then
    (0, ⟨0, 0, 0⟩)
  else
    let flesch_score := compute_flesch_reading_ease text
    let smog_score := compute_smog_index sqrtFn text
    let ari_score := compute_ari text
    let combined_score := flesch_score * 0.5 + smog_score * 0.25 + ari_score * 0.25
    (combined_score, ⟨flesch_score, smog_score, ari_score⟩)

end ReadabilityAnalyzer

namespace XMLProcessor
/-!
Embeds the counting and analysis part of app/services/xml_processor.py
(analyze_content and the three counters).  The XML text extraction is an
external input to the parts verified here.
-/

open PyText

/-- count_words (xml_processor.py lines 100-105): the number of maximal
word-character runs. -/
def count_words (l : List Char) : Nat :=
  if l = [] then 0 else (splitRuns isWordChar l).length

/-- count_sentences (lines 107-112): the number of maximal runs of
[.!?]. -/
def count_sentences (l : List Char) : Nat :=
  if l = [] then 0 else (splitRuns isTermChar l).length

/-- Append a list of characters to the head piece of a piece list. -/
def prependToHead (xs : List Char) : List (List Char) → List (List Char)
  | [] => [xs]
  | s :: rest => (xs ++ s) :: rest

/-- Decide a buffered whitespace run: a run holding at least two newline
characters matches the paragraph separator pattern (a newline, greedy
whitespace, a newline); its prefix before the first newline stays with the
left piece and its suffix after the last newline stays with the right
piece.  A run with fewer than two newlines matches nothing and stays in
the current piece. -/
def flushBuf (buf : List Char) (segs : List (List Char)) : List (List Char) :=
  if 2 ≤ (buf.filter (· = '\n')).length then
    (buf.takeWhile (· ≠ '\n')) :: prependToHead ((buf.reverse.takeWhile (· ≠ '\n')).reverse) segs
  else prependToHead buf segs

/-- One right-to-left step of the paragraph scan: buffer whitespace until
a non-whitespace character decides the buffered run. -/
def paraStep (c : Char) : List (List Char) × List Char → List (List Char) × List Char
  | (segs, buf) =>
    if pyIsSpace c then (segs, c :: buf)
    else
      match flushBuf buf segs with
      | [] => ([[c]], [])
      | s :: rest => ((c :: s) :: rest, [])

/-- The pieces of re.split on the paragraph separator pattern (a newline,
greedy whitespace, a newline). -/
def paraSplit (l : List Char) : List (List Char) :=
  let st := l.foldr paraStep ([[]], [])
  flushBuf st.2 st.1

/-- count_paragraphs (lines 114-119): the number of pieces of the
paragraph split. -/
def count_paragraphs (l : List Char) : Nat :=
  if l = [] then 0 else (paraSplit l).length

/-- The record returned by analyze_content. -/
structure Analysis where
  word_count : Nat
  sentence_count : Nat
  paragraph_count : Nat
  readability_score : ℚ
  readability_metrics : ReadabilityAnalyzer.Metrics
  deriving Repr, DecidableEq

/-- The all-zero analysis returned for invalid or empty input. -/
def zeroAnalysis : Analysis :=
  ⟨0, 0, 0, 0, ⟨0, 0, 0⟩⟩

/-- analyze_content (lines 39-98): zero record for empty or
whitespace-only input, otherwise strip, drop non-printable characters,
count, and compute readability on the cleaned text. -/
def analyze_content (sqrtFn : ℚ → ℚ) (text : List Char) : Analysis :=
  if text = [] then zeroAnalysis
  else
    let t := pyStrip text
    if t = [] then zeroAnalysis
    else
      let cleaned := t.filter pyIsPrintable
      let r := ReadabilityAnalyzer.compute_readability_score sqrtFn cleaned
      ⟨count_words cleaned, count_sentences cleaned, count_paragraphs cleaned,
        r.1, r.2⟩

end XMLProcessor

namespace ECFRApiClient
/-!
Embeds the retry logic of app/services/ecfr_api.py.  The network is an
explicit environment: a function from the index of the request (in the
order the client issues them) to the response received.  Sleeping for
backoff has no observable effect beyond ordering and is dropped.
-/

open PyText

/-- A search-endpoint response: its HTTP status and, when the body parses
as JSON, the parsed results list (None models a body on which
response.json() raises).  Result rows are abstract. -/
structure SearchResponse (α : Type) where
  status : Nat
  payload : Option (List α)

/-- The retry loop of search_agency_documents (ecfr_api.py lines
105-138): fuel counts the remaining iterations of the while loop (the
loop runs for retry counts 0..max_retries and every non-returning
iteration increments the count); idx is the index of the next request.
On HTTP 429, on an HTTP error status (raise_for_status) and on a JSON
parse failure the loop retries; when the budget is exhausted it returns
an empty results list.  Returns the results together with the number of
requests issued. -/
def searchLoop (env : Nat → SearchResponse α) : Nat → Nat → List α × Nat
  | 0, idx => ([], idx)
  | fuel + 1, idx =>
    let r := env idx
    if r.status = 429 then searchLoop env fuel (idx + 1)
    else if 400 ≤ r.status then searchLoop env fuel (idx + 1)
    else
      match r.payload with
      | none => searchLoop env fuel (idx + 1)
      | some data => (data, idx + 1)

/-- search_agency_documents (lines 93-138): max_retries = 3, so the loop
body runs at most 4 times. -/
def search_agency_documents (env : Nat → SearchResponse α) : List α × Nat :=
  searchLoop env 4 0

/-- A count-endpoint response: its status and, when the body parses as
JSON, the parsed document (abstracted to the total count the caller
reads); None models a body on which response.json() raises. -/
structure CountResponse where
  status : Nat
  payload : Option Nat

/-- get_agency_document_count (lines 223-237): a single request with no
retry logic; raise_for_status propagates any HTTP error status to the
caller, and a JSON parse failure propagates as well. -/
def get_agency_document_count (env : Nat → CountResponse) : Except Unit Nat :=
  let r := env 0
  if 400 ≤ r.status then Except.error ()
  else
    match r.payload with
    | none => Except.error ()
    | some n => Except.ok n

/-- A content-endpoint response: its status and body text. -/
structure ContentResponse where
  status : Nat
  body : List Char

/-- The literal the 400 handler looks for in the body (line 180); the
apostrophe is spelled with Char.ofNat 39. -/
def errMsgText : List Char :=
  ("past the title").data ++ [Char.ofNat 39] ++ ("s most recent issue date").data

/-- The literal prefix of the date-extraction pattern (line 184). -/
def dateMarkerText : List Char :=
  ("most recent issue date of ").data

/-- ASCII digit test. -/
def isDigitChar (c : Char) : Bool :=
  '0' ≤ c && c ≤ '9'

/-- Whether ten characters match the fixed-width date pattern of four
digits, a dash, two digits, a dash, two digits. -/
def isDateShape : List Char → Bool
  | [a, b, c, d, e, f, g, h, i, j] =>
    isDigitChar a && isDigitChar b && isDigitChar c && isDigitChar d &&
    (e == '-') && isDigitChar f && isDigitChar g && (h == '-') &&
    isDigitChar i && isDigitChar j
  | _ => false

/-- Substring containment: the semantics of the Python `in` test on
strings. -/
def containsSub (pat : List Char) : List Char → Bool
  | [] => pat.isPrefixOf ([] : List Char)
  | c :: cs => pat.isPrefixOf (c :: cs) || containsSub pat cs

/-- re.search for the pattern formed by a literal marker followed by the
fixed-width date: the leftmost position where the marker matches and the
ten following characters have the date shape yields the captured date. -/
def findDateAfter (marker : List Char) : List Char → Option (List Char)
  | [] =>
    if marker.isPrefixOf ([] : List Char) && isDateShape [] then some [] else none
  | c :: cs =>
    if marker.isPrefixOf (c :: cs) && isDateShape (((c :: cs).drop marker.length).take 10) then
      some (((c :: cs).drop marker.length).take 10)
    else findDateAfter marker cs

/-- The retry loop of get_document_content (lines 161-221).  Each loop
iteration requests the original date; on HTTP 429 it retries; on HTTP 400
whose body holds the recoverable message and an extractable date it
issues one request with the corrected date inside the same iteration
(429 there re-enters the loop, an error status there raises into the
retry handler, success returns the retry body); any other error status
raises into the retry handler; the handler retries until the budget is
exhausted and then yields None.  The second component logs the date of
every request issued, in order. -/
def contentLoop (env : Nat → ContentResponse) (date : List Char) :
    Nat → Nat → List (List Char) → Option (List Char) × List (List Char)
  | 0, _, log => (none, log)
  | fuel + 1, idx, log =>
    let r := env idx
    if r.status = 429 then contentLoop env date fuel (idx + 1) (log ++ [date])
    else if (r.status == 400) && containsSub errMsgText r.body then
      match findDateAfter dateMarkerText r.body with
      | some d2 =>
        let r2 := env (idx + 1)
        if r2.status = 429 then contentLoop env date fuel (idx + 2) (log ++ [date, d2])
        else if 400 ≤ r2.status then contentLoop env date fuel (idx + 2) (log ++ [date, d2])
        else (some r2.body, log ++ [date, d2])
      | none => contentLoop env date fuel (idx + 1) (log ++ [date])
    else if 400 ≤ r.status then contentLoop env date fuel (idx + 1) (log ++ [date])
    else (some r.body, log ++ [date])

/-- get_document_content (lines 140-221): max_retries = 3, so the loop
body runs at most 4 times. -/
def get_document_content (env : Nat → ContentResponse) (date : List Char) :
    Option (List Char) × List (List Char) :=
  contentLoop env date 4 0 []

end ECFRApiClient

namespace AppMain
/-!
Embeds the ingestion orchestration of app/main.py.  The persisted
AgencyDocumentCount progress record carries the pagination cursor and the
tri-state completion flag; the per-page descriptor and content writes are
abstracted to the index of the page they belong to, since the properties
settled here concern which pages' writes are durably committed.  Commit
outcomes are an explicit oracle from page index to success.
-/

open PyText

/-- The persisted progress state: the AgencyDocumentCount columns
current_page and is_complete, together with the set (in page order) of
pages whose writes are durably committed. -/
structure ProgressRecord where
  current_page : Nat
  is_complete : Nat
  committed_pages : List Nat
  deriving Repr, DecidableEq

/-- One page iteration of the get_agency_documents loop (main.py lines
150-304): the page's writes and the cursor advance to p+1 are staged in
one transaction; a successful commit persists both, a failed commit is
rolled back (line 296-299) and persists neither, after which the loop
continues with the next page. -/
def pageCommit (commitOk : Nat → Bool) (st : ProgressRecord) (p : Nat) : ProgressRecord :=
  if commitOk p then
    { current_page := p + 1, is_complete := st.is_complete,
      committed_pages := st.committed_pages ++ [p] }
  else st

/-- The get_agency_documents endpoint loop with process_all true and no
max_pages limit (lines 144-311), resuming from the persisted cursor: the
loop walks every page from the cursor to total_pages, committing each
page with pageCommit, and afterwards (the local page counter having
reached total_pages) marks the record complete; finalOk is the outcome of
that final flag-only commit (lines 307-311). -/
def get_agency_documents_process_all (commitOk : Nat → Bool) (finalOk : Bool)
    (total_pages : Nat) (st : ProgressRecord) : ProgressRecord :=
  let afterPages :=
    (List.range' st.current_page (total_pages - st.current_page)).foldl (pageCommit commitOk) st
  if finalOk then { afterPages with is_complete := 2 } else afterPages

/-- The page loop of process_agency_documents_sequential (lines 496-531):
fuel bounds the remaining iterations, p is the local page counter, st the
persisted state.  A failed page commit raises out of the loop into the
handler at line 534, ending the run with the persisted state unchanged;
after the last page the record is marked complete, finalOk being the
outcome of that commit (lines 530-531). -/
def seqPages (commitOk : Nat → Bool) (finalOk : Bool) (total : Nat) :
    Nat → Nat → ProgressRecord → ProgressRecord
  | 0, p, st =>
    if total ≤ p then (if finalOk then { st with is_complete := 2 } else st) else st
  | fuel + 1, p, st =>
    if total ≤ p then (if finalOk then { st with is_complete := 2 } else st)
    else if commitOk p then
      seqPages commitOk finalOk total fuel (p + 1)
        { current_page := p + 1, is_complete := st.is_complete,
          committed_pages := st.committed_pages ++ [p] }
    else st

/-- process_agency_documents_sequential (lines 467-540): mark the record
in progress (startOk is the outcome of that commit at line 487; failure
raises and ends the run), then run the page loop from the persisted
cursor. -/
def process_agency_documents_sequential (startOk : Bool) (commitOk : Nat → Bool)
    (finalOk : Bool) (total_pages : Nat) (st : ProgressRecord) : ProgressRecord :=
  if startOk then
    seqPages commitOk finalOk total_pages (total_pages - st.current_page) st.current_page
      { st with is_complete := 1 }
  else st

/-- process_agency_documents_concurrent (lines 543-650): mark the record
in progress, hand every page from the cursor to total_pages to a worker
pool (each worker owns its session; a worker whose page fails catches the
exception, rolls back, and commits nothing, modelled by pageOk), wait for
all workers, and then unconditionally set current_page to total_pages and
is_complete to 2 in one final commit (lines 637-640, outcome finalOk).
Workers finish in arbitrary order; the set of committed pages is
order-independent and is recorded in page order. -/
def process_agency_documents_concurrent (startOk : Bool) (pageOk : Nat → Bool)
    (finalOk : Bool) (total_pages : Nat) (st : ProgressRecord) : ProgressRecord :=
  if startOk then
    let st1 : ProgressRecord :=
      { st with is_complete := 1 }
    let pages_to_process := List.range' st1.current_page (total_pages - st1.current_page)
    let st2 : ProgressRecord :=
      { st1 with committed_pages := st1.committed_pages ++ pages_to_process.filter pageOk }
    if finalOk then { st2 with current_page := total_pages, is_complete := 2 } else st2
  else st

/-- Python truthiness of an optional string field. -/
def truthy : Option (List Char) → Bool
  | none => false
  | some s => s ≠ []

/-- The hierarchy dictionary of a search descriptor (the section key is
spelled sect because section is reserved in Lean). -/
structure Hierarchy where
  title : Option (List Char)
  chapter : Option (List Char)
  part : Option (List Char)
  sect : Option (List Char)
  appendix : Option (List Char)
  deriving Repr, DecidableEq

/-- An AgencyTitleSearchDescriptor row, restricted to the fields
get_and_store_document_content reads and writes. -/
structure Descriptor where
  id : Nat
  hierarchy : Option Hierarchy
  starts_on : Option (List Char)
  ends_on : Option (List Char)
  processing_status : Nat
  deriving Repr, DecidableEq

/-- A DocumentContent row (app/models/document_content.py), keyed by
(descriptor_id, version_date). -/
structure ContentRow where
  descriptor_id : Nat
  agency_id : Nat
  version_date : List Char
  raw_xml : List Char
  processed_text : Option (List Char)
  deriving Repr, DecidableEq

/-- An AgencyDocument row (app/models/document.py), restricted to the
fields relevant to document identity. -/
structure DocumentRow where
  document_id : List Char
  agency_id : Nat
  updated_at : Nat
  deriving Repr, DecidableEq

/-- The store state ingestion writes to: document contents and logical
documents. -/
structure IngestDb where
  contents : List ContentRow
  documents : List DocumentRow
  deriving Repr, DecidableEq

/-- Split on a dash, keeping empty pieces (list analogue of
str.split which datetime.strptime induces for this fixed format). -/
def splitOnDash (l : List Char) : List (List Char) :=
  l.foldr
    (fun c acc =>
      if c = '-' then [] :: acc
      else
        match acc with
        | [] => [[c]]
        | s :: rest => (c :: s) :: rest)
    [[]]

/-- Decimal value of an all-digit character list. -/
def digitsToNat (l : List Char) : Nat :=
  l.foldl (fun n c => n * 10 + (c.toNat - 48)) 0

/-- Leap-year rule of the Gregorian calendar, as datetime uses. -/
def isLeapYear (y : Nat) : Bool :=
  y % 4 == 0 && (y % 100 != 0 || y % 400 == 0)

/-- Days in a month of a given year. -/
def daysInMonth (y m : Nat) : Nat :=
  if m = 2 then (if isLeapYear y then 29 else 28)
  else if m = 4 || m = 6 || m = 9 || m = 11 then 30
  else 31

/-- Whether datetime.strptime(s, a year-month-day format) succeeds:
three dash-separated all-digit fields of width at most 4, 2 and 2, a year
from 1 to 9999, a month from 1 to 12 and a day valid for that month. -/
def validYMD (s : List Char) : Bool :=
  match splitOnDash s with
  | [ys, ms, ds] =>
    ys ≠ [] && ms ≠ [] && ds ≠ [] &&
    ys.length ≤ 4 && ms.length ≤ 2 && ds.length ≤ 2 &&
    ys.all isAsciiDigit && ms.all isAsciiDigit && ds.all isAsciiDigit &&
    (let y := digitsToNat ys
     let m := digitsToNat ms
     let d := digitsToNat ds
     1 ≤ y && y ≤ 9999 && 1 ≤ m && m ≤ 12 && 1 ≤ d && d ≤ daysInMonth y m)
  | _ => false
where
  isAsciiDigit (c : Char) : Bool := '0' ≤ c && c ≤ '9'

/-- get_and_store_document_content (main.py lines 696-781).  The outcome
of the client call ecfr_client.get_document_content is the fetchResult
input and XMLProcessor.extract_text_from_xml is the extractText input
(both are collaborators of the function under study).  Returns whether a
content row was added, the updated descriptor and the updated store. -/
def get_and_store_document_content (descriptor : Descriptor) (agency_id : Nat)
    (fetchResult : Option (List Char)) (extractText : List Char → Option (List Char))
    (today : List Char) (db : IngestDb) : Bool × Descriptor × IngestDb :=
  match descriptor.hierarchy with
  | none => (false, { descriptor with processing_status := 2 }, db)
  | some h =>
    if !(truthy h.title && truthy h.chapter) then
      (false, { descriptor with processing_status := 2 }, db)
    else
      let content_date :=
        if truthy descriptor.ends_on then descriptor.ends_on.getD []
        else if truthy descriptor.starts_on then descriptor.starts_on.getD []
        else today
      match fetchResult with
      | none => (false, { descriptor with processing_status := 3 }, db)
      | some xml =>
        let version_date := if validYMD content_date then content_date else today
        if db.contents.any
            (fun c => c.descriptor_id == descriptor.id && c.version_date == version_date) then
          (false, { descriptor with processing_status := 2 }, db)
        else
          let content : ContentRow :=
            { descriptor_id := descriptor.id, agency_id := agency_id,
              version_date := version_date, raw_xml := xml,
              processed_text := extractText xml }
          (true, { descriptor with processing_status := 2 },
            { db with contents := db.contents ++ [content] })

end AppMain

namespace MetricsService
/-!
Embeds app/services/metrics_service.py.  UUIDs and datetimes are opaque
identifiers compared only for equality, modelled as naturals; the store
session is the explicit list of rows; the commit outcome of the one
insert is an explicit flag.
-/

open PyText

/-- An AgencyRegulationDocumentHistoricalMetrics row
(app/models/metrics.py), keyed by (document_id, metrics_date). -/
structure MetricsRow where
  document_id : Nat
  metrics_date : Nat
  agency_id : Nat
  word_count : Nat
  sentence_count : Nat
  paragraph_count : Nat
  combined_readability_score : ℚ
  flesch_reading_ease : ℚ
  smog_index_score : ℚ
  automated_readability_score : ℚ
  deriving Repr, DecidableEq

/-- A DocumentContent row as the metrics service reads it. -/
structure StoredContent where
  id : Nat
  processed_text : Option (List Char)
  raw_xml : Option (List Char)
  deriving Repr, DecidableEq

/-- The store state the metrics service touches. -/
structure MetricsDb where
  contents : List StoredContent
  metrics : List MetricsRow
  deriving Repr, DecidableEq

/-- Python `a or b` on two optional strings: the left one if truthy, else
the right one. -/
def pyOrOpt (a b : Option (List Char)) : Option (List Char) :=
  if AppMain.truthy a then a else b

/-- compute_and_store_metrics (metrics_service.py lines 218-295).
Either content or document_content_id must be provided; content is
validated and stripped; if a row for (document_id, metrics_date) already
exists it is returned with the store untouched; otherwise the content is
analysed and one new row inserted, insertOk being the commit outcome
(failure rolls back and raises).  All raised ValueErrors are modelled as
the error outcome. -/
def compute_and_store_metrics (sqrtFn : ℚ → ℚ) (insertOk : Bool) (db : MetricsDb)
    (document_id : Nat) (agency_id : Nat) (content : Option (List Char))
    (document_content_id : Option Nat) (metrics_date : Option Nat) (now : Nat) :
    Except Unit (MetricsDb × MetricsRow) :=
  if !AppMain.truthy content && document_content_id = none then Except.error ()
  else
    let fetched : Except Unit (Option (List Char)) :=
      if !AppMain.truthy content then
        match document_content_id with
        | some cid =>
          match db.contents.find? (fun c => c.id == cid) with
          | none => Except.error ()
          | some dc => Except.ok (pyOrOpt dc.processed_text dc.raw_xml)
        | none => Except.ok content
      else Except.ok content
    match fetched with
    | Except.error _ => Except.error ()
    | Except.ok content2 =>
      let metrics_date2 := metrics_date.getD now
      if !AppMain.truthy content2 then Except.error ()
      else
        let stripped := pyStrip (content2.getD [])
        if stripped = [] then Except.error ()
        else
          match db.metrics.find?
              (fun m => m.document_id == document_id && m.metrics_date == metrics_date2) with
          | some existing => Except.ok (db, existing)
          | none =>
            let a := XMLProcessor.analyze_content sqrtFn stripped
            let row : MetricsRow :=
              { document_id := document_id, metrics_date := metrics_date2,
                agency_id := agency_id,
                word_count := a.word_count, sentence_count := a.sentence_count,
                paragraph_count := a.paragraph_count,
                combined_readability_score := a.readability_score,
                flesch_reading_ease := a.readability_metrics.flesch_reading_ease,
                smog_index_score := a.readability_metrics.smog_index,
                automated_readability_score := a.readability_metrics.automated_readability_index }
            if insertOk then Except.ok ({ db with metrics := db.metrics ++ [row] }, row)
            else Except.error ()

/-- process_document_batch (lines 22-83): each (document, content) pair
of the batch yields exactly one result record, a success or an error
(both the try body at line 50 and the handler at line 70 append one);
outcome abstracts the per-item processing described by
compute_and_store_metrics. -/
def process_document_batch (outcome : α → Bool) (batch : List α) : List (α × Bool) :=
  batch.map (fun item => (item, outcome item))

/-- The slice items[start_idx:end_idx] for worker i in the loop at lines
175-179, with start_idx = i * batch_size and end_idx capped at the item
count; an empty slice is omitted (None). -/
def batchSlice (items : List α) (batch_size i : Nat) : Option (List α) :=
  let start_idx := i * batch_size
  let end_idx := min (start_idx + batch_size) items.length
  if start_idx < end_idx then some ((items.drop start_idx).take (end_idx - start_idx))
  else none

/-- The batch list built at lines 172-179: ceiling-division batch size,
one contiguous slice per worker index, slices past the end omitted. -/
def document_batches (items : List α) (workers : Nat) : List (List α) :=
  let batch_size := (items.length + workers - 1) / workers
  (List.range workers).filterMap (batchSlice items batch_size)

/-- The summary dictionary returned by
compute_metrics_for_all_documents. -/
structure Summary (α : Type) where
  total_processed : Nat
  success_count : Nat
  error_count : Nat
  results : List (α × Bool)
  errors : List (α × Bool)
  deriving Repr

/-- compute_metrics_for_all_documents (lines 85-216), from the point
where the discovery query has produced its item list: clamp workers to
[1,10] (line 109) and to the item count (line 168), batch, process each
batch in a worker pool, and collect batch results in the order the
workers complete, given by completionOrder as indices into the batch
list; count successes and errors and return the summary. -/
def compute_metrics_for_all_documents (outcome : α → Bool) (workers : Nat)
    (items : List α) (completionOrder : List Nat) : Summary α :=
  let workers1 := max 1 (min 10 workers)
  if items.length = 0 then ⟨0, 0, 0, [], []⟩
  else
    let workers2 := min workers1 items.length
    let batches := document_batches items workers2
    let results :=
      (completionOrder.filterMap (fun i => batches[i]?)).map (process_document_batch outcome)
        |>.flatten
    let successful_results := results.filter (fun r => r.2)
    let error_results := results.filter (fun r => !r.2)
    ⟨items.length, successful_results.length, error_results.length,
      successful_results, error_results⟩

end MetricsService

namespace Examples
/-!
Concrete inputs used by the witnesses and counterexamples below.
-/

/-- The Flesch example text of the specification. -/
def fleschText : List Char :=
  ("The cat sat. The dog ran.").data

/-- A short text with fewer than 30 sentences. -/
def shortText : List Char :=
  ("Hi there. Bye.").data

/-- A whitespace-only text. -/
def blankText : List Char :=
  ("  \n\t ").data

/-- An HTTP 400 body carrying the recoverable date message with an
embedded corrected date. -/
def recoverableBody : List Char :=
  ("Requested date is past the title").data ++ [Char.ofNat 39] ++
    ("s most recent issue date of 2024-01-31. Try again.").data

/-- A content environment whose original request always yields the
recoverable 400 and whose corrected-date retry is first rate limited and
then succeeds: requests 0 and 2 are the original date, requests 1 and 3
the corrected date. -/
def contentEnvRepeat : Nat → ECFRApiClient.ContentResponse := fun n =>
  if n = 0 then ⟨400, recoverableBody⟩
  else if n = 1 then ⟨429, []⟩
  else if n = 2 then ⟨400, recoverableBody⟩
  else ⟨200, ("corrected content").data⟩

/-- A content environment where the corrected-date retry succeeds at
once. -/
def contentEnvHappy : Nat → ECFRApiClient.ContentResponse := fun n =>
  if n = 0 then ⟨400, recoverableBody⟩
  else ⟨200, ("corrected content").data⟩

/-- The original request date used with the content environments. -/
def contentDate : List Char :=
  ("2024-06-01").data

/-- The corrected date embedded in recoverableBody. -/
def correctedDate : List Char :=
  ("2024-01-31").data

/-- A count environment that always answers HTTP 429. -/
def count429Env : Nat → ECFRApiClient.CountResponse := fun _ =>
  ⟨429, none⟩

/-- A search environment that always answers HTTP 429. -/
def search429Env : Nat → ECFRApiClient.SearchResponse Nat := fun _ =>
  ⟨429, none⟩

/-- A descriptor whose hierarchy is title 40, chapter I, part 52, with a
valid ends_on date. -/
def descriptor4052 : AppMain.Descriptor :=
  { id := 1,
    hierarchy := some
      { title := some (("40").data), chapter := some (("I").data),
        part := some (("52").data), sect := none, appendix := none },
    starts_on := none,
    ends_on := some (("2024-01-31").data),
    processing_status := 1 }

/-- An empty ingestion store. -/
def emptyIngestDb : AppMain.IngestDb :=
  { contents := [], documents := [] }

/-- A fresh progress record at page 0. -/
def progress0 : AppMain.ProgressRecord :=
  { current_page := 0, is_complete := 1, committed_pages := [] }

/-- A commit oracle under which only page 0 fails to commit. -/
def failPage0 : Nat → Bool := fun p =>
  !(p == 0)

/-- An empty metrics store. -/
def emptyMetricsDb : MetricsService.MetricsDb :=
  { contents := [], metrics := [] }

/-- The identity stand-in for math.sqrt used to instantiate sqrtFn in
witnesses (the settled properties hold for every such function). -/
def idSqrt : ℚ → ℚ := fun q => q

/-- The metrics row computed for the Flesch example text with document 1,
agency 2 and metrics date 5. -/
def insertedRow : MetricsService.MetricsRow :=
  { document_id := 1, metrics_date := 5, agency_id := 2,
    word_count := 6, sentence_count := 2, paragraph_count := 1,
    combined_readability_score := 75, flesch_reading_ease := 100,
    smog_index_score := 0, automated_readability_score := 100 }

/-- The metrics store after inserting that row into the empty store. -/
def dbAfterInsert : MetricsService.MetricsDb :=
  { contents := [], metrics := [insertedRow] }

end Examples

/-!
## Theorems

Helper lemmas first, then the claim theorems with their witnesses and
counterexamples.
-/


theorem clamp01_nonneg (q : ℚ) : 0 ≤ ReadabilityAnalyzer.clamp01 q := by
  unfold ReadabilityAnalyzer.clamp01 ReadabilityAnalyzer.ratMax ReadabilityAnalyzer.ratMin
  split_ifs <;> linarith

theorem clamp01_le_hundred (q : ℚ) : ReadabilityAnalyzer.clamp01 q ≤ 100 := by
  unfold ReadabilityAnalyzer.clamp01 ReadabilityAnalyzer.ratMax ReadabilityAnalyzer.ratMin
  split_ifs <;> linarith

theorem ite_zero_clamp_mem (c : Prop) [Decidable c] (q : ℚ) :
    0 ≤ (if c then (0 : ℚ) else ReadabilityAnalyzer.clamp01 q) ∧
      (if c then (0 : ℚ) else ReadabilityAnalyzer.clamp01 q) ≤ 100 := by
  split
  · norm_num
  · exact ⟨clamp01_nonneg _, clamp01_le_hundred _⟩

theorem flesch_mem (text : List Char) :
    0 ≤ ReadabilityAnalyzer.compute_flesch_reading_ease text ∧
      ReadabilityAnalyzer.compute_flesch_reading_ease text ≤ 100 :=
  ite_zero_clamp_mem _ _

theorem smog_mem (sqrtFn : ℚ → ℚ) (text : List Char) :
    0 ≤ ReadabilityAnalyzer.compute_smog_index sqrtFn text ∧
      ReadabilityAnalyzer.compute_smog_index sqrtFn text ≤ 100 :=
  ite_zero_clamp_mem _ _

theorem ari_mem (text : List Char) :
    0 ≤ ReadabilityAnalyzer.compute_ari text ∧
      ReadabilityAnalyzer.compute_ari text ≤ 100 :=
  ite_zero_clamp_mem _ _

/-- Claim C10: for every input, each of the Flesch, SMOG and ARI scores
lies in [0, 100], and therefore the combined score returned by
compute_readability_score (0.5 Flesch + 0.25 SMOG + 0.25 ARI) also lies
in [0, 100]. -/
theorem claim_C10_scores_in_range (sqrtFn : ℚ → ℚ) (text : List Char) :
    (0 ≤ ReadabilityAnalyzer.compute_flesch_reading_ease text ∧
      ReadabilityAnalyzer.compute_flesch_reading_ease text ≤ 100) ∧
    (0 ≤ ReadabilityAnalyzer.compute_smog_index sqrtFn text ∧
      ReadabilityAnalyzer.compute_smog_index sqrtFn text ≤ 100) ∧
    (0 ≤ ReadabilityAnalyzer.compute_ari text ∧
      ReadabilityAnalyzer.compute_ari text ≤ 100) ∧
    (0 ≤ (ReadabilityAnalyzer.compute_readability_score sqrtFn text).1 ∧
      (ReadabilityAnalyzer.compute_readability_score sqrtFn text).1 ≤ 100) := by
  have hf := flesch_mem text
  have hs := smog_mem sqrtFn text
  have ha := ari_mem text
  refine ⟨hf, hs, ha, ?_⟩
  by_cases hz : PyText.pyStrip text = []
  · simp [ReadabilityAnalyzer.compute_readability_score, hz]
  · simp only [ReadabilityAnalyzer.compute_readability_score, hz, if_false, if_neg]
    constructor
    · nlinarith [hf.1, hs.1, ha.1]
    · nlinarith [hf.2, hs.2, ha.2]

/-- Claim C7: when the word list and sentence list of a text are both
non-empty, compute_flesch_reading_ease returns
206.835 - 1.015 (words per sentence) - 84.6 (syllables per word)
clamped to [0, 100], with syllables counted by the trailing-e-stripping
vowel-group heuristic. -/
theorem claim_C7_flesch_formula (text : List Char)
    (hw : ReadabilityAnalyzer.get_words text ≠ [])
    (hs : ReadabilityAnalyzer.get_sentences text ≠ []) :
    ReadabilityAnalyzer.compute_flesch_reading_ease text =
      ReadabilityAnalyzer.clamp01
        (206.835
          - 1.015 * (((ReadabilityAnalyzer.get_words text).length : ℚ) /
              ((ReadabilityAnalyzer.get_sentences text).length : ℚ))
          - 84.6 * ((ReadabilityAnalyzer.total_syllables
                (ReadabilityAnalyzer.get_words text) : ℚ) /
              ((ReadabilityAnalyzer.get_words text).length : ℚ))) := by
  simp only [ReadabilityAnalyzer.compute_flesch_reading_ease]
  rw [if_neg]
  simp [hw, hs]

/-- Witness for C7 at the example of the specification: the text
"The cat sat. The dog ran." has 2 sentences, 6 words and 6 syllables, and
the formula value 206.835 - 1.015 * 3 - 84.6 = 119.19 is clamped to
100. -/
theorem claim_C7_flesch_formula_witness :
    ReadabilityAnalyzer.get_words Examples.fleschText ≠ [] ∧
    ReadabilityAnalyzer.get_sentences Examples.fleschText ≠ [] ∧
    (ReadabilityAnalyzer.get_sentences Examples.fleschText).length = 2 ∧
    (ReadabilityAnalyzer.get_words Examples.fleschText).length = 6 ∧
    ReadabilityAnalyzer.total_syllables (ReadabilityAnalyzer.get_words Examples.fleschText) = 6 ∧
    ReadabilityAnalyzer.compute_flesch_reading_ease Examples.fleschText = 100 := by
  have hw : ReadabilityAnalyzer.get_words Examples.fleschText ≠ [] := by
    with_unfolding_all decide
  have hs : ReadabilityAnalyzer.get_sentences Examples.fleschText ≠ [] := by
    with_unfolding_all decide
  refine ⟨hw, hs, by with_unfolding_all rfl, by with_unfolding_all rfl,
    by with_unfolding_all rfl, ?_⟩
  rw [claim_C7_flesch_formula Examples.fleschText hw hs]
  with_unfolding_all rfl

theorem all_space_pyStrip_nil (l : List Char) (h : l.all PyText.pyIsSpace = true) :
    PyText.pyStrip l = [] := by
  have hd : l.dropWhile PyText.pyIsSpace = [] := by
    induction l with
    | nil => rfl
    | cons c cs ih =>
      simp only [List.all_cons, Bool.and_eq_true] at h
      simp [List.dropWhile, h.1, ih h.2]
  unfold PyText.pyStrip
  rw [hd]
  rfl

/-- Claim C8: a text with fewer than 30 sentences has SMOG score 0, and
an empty or whitespace-only input analysed by analyze_content yields zero
word, sentence and paragraph counts and all-zero readability scores,
without an error. -/
theorem claim_C8_smog_boundary_and_empty (sqrtFn : ℚ → ℚ) (t1 t2 : List Char)
    (h1 : (ReadabilityAnalyzer.get_sentences t1).length < 30)
    (h2 : t2.all PyText.pyIsSpace = true) :
    ReadabilityAnalyzer.compute_smog_index sqrtFn t1 = 0 ∧
    XMLProcessor.analyze_content sqrtFn t2 = XMLProcessor.zeroAnalysis := by
  constructor
  · simp only [ReadabilityAnalyzer.compute_smog_index]
    rw [if_pos]
    simp [h1]
  · have hstrip := all_space_pyStrip_nil t2 h2
    by_cases ht : t2 = []
    · simp [XMLProcessor.analyze_content, ht]
    · simp [XMLProcessor.analyze_content, ht, hstrip]

/-- Witness for C8: a two-sentence text has SMOG 0, and a
whitespace-only text is analysed to the zero record. -/
theorem claim_C8_smog_boundary_and_empty_witness :
    (ReadabilityAnalyzer.get_sentences Examples.shortText).length < 30 ∧
    Examples.blankText.all PyText.pyIsSpace = true ∧
    ReadabilityAnalyzer.compute_smog_index Examples.idSqrt Examples.shortText = 0 ∧
    XMLProcessor.analyze_content Examples.idSqrt Examples.blankText = XMLProcessor.zeroAnalysis := by
  have h1 : (ReadabilityAnalyzer.get_sentences Examples.shortText).length < 30 := by
    with_unfolding_all decide
  have h2 : Examples.blankText.all PyText.pyIsSpace = true := by
    with_unfolding_all decide
  have h := claim_C8_smog_boundary_and_empty Examples.idSqrt Examples.shortText
    Examples.blankText h1 h2
  exact ⟨h1, h2, h.1, h.2⟩

theorem searchLoop_all_fail (env : Nat → ECFRApiClient.SearchResponse α)
    (h : ∀ i, (env i).status = 429 ∨ 400 ≤ (env i).status ∨ (env i).payload = none) :
    ∀ fuel idx, ECFRApiClient.searchLoop env fuel idx = ([], idx + fuel) := by
  intro fuel
  induction fuel with
  | zero => intro idx; simp [ECFRApiClient.searchLoop]
  | succ n ih =>
    intro idx
    simp only [ECFRApiClient.searchLoop]
    by_cases h429 : (env idx).status = 429
    · rw [if_pos h429, ih]
      simp
      omega
    · rw [if_neg h429]
      by_cases h400 : 400 ≤ (env idx).status
      · rw [if_pos h400, ih]
        simp
        omega
      · rw [if_neg h400]
        have hp : (env idx).payload = none := by
          rcases h idx with h1 | h1 | h1
          · exact absurd h1 h429
          · exact absurd h1 h400
          · exact h1
        rw [hp, ih]
        simp
        omega

/-- Counterexample to claim C1: under sustained HTTP 429 responses the
search operation follows the retry policy and soft-fails to an empty
result after its four attempts, but the count operation
get_agency_document_count raises the error to the caller instead of
retrying and returning a zero count. -/
theorem claim_C1_count_retry_counterexample :
    ECFRApiClient.get_agency_document_count Examples.count429Env = Except.error () ∧
    ECFRApiClient.search_agency_documents Examples.search429Env = ([], 4) := by
  constructor
  · with_unfolding_all rfl
  · with_unfolding_all rfl

/-- Claim C1 amended: search_agency_documents follows the retry policy
(up to 3 retries after the first attempt, then an empty soft-failure
result), but get_agency_document_count has no retry logic at all: it
issues a single request and, through raise_for_status, raises every HTTP
error status - 429 included - to the caller. -/
theorem claim_C1_amended_count_raises (cenv : Nat → ECFRApiClient.CountResponse)
    (senv : Nat → ECFRApiClient.SearchResponse Nat)
    (hc : 400 ≤ (cenv 0).status)
    (hs : ∀ i, (senv i).status = 429 ∨ 400 ≤ (senv i).status ∨ (senv i).payload = none) :
    ECFRApiClient.get_agency_document_count cenv = Except.error () ∧
    ECFRApiClient.search_agency_documents senv = ([], 4) := by
  constructor
  · simp only [ECFRApiClient.get_agency_document_count]
    rw [if_pos hc]
  · unfold ECFRApiClient.search_agency_documents
    rw [searchLoop_all_fail senv hs 4 0]

/-- Witness for the amended C1 at the all-429 environments. -/
theorem claim_C1_amended_count_raises_witness :
    (400 ≤ (Examples.count429Env 0).status) ∧
    ECFRApiClient.get_agency_document_count Examples.count429Env = Except.error () ∧
    ECFRApiClient.search_agency_documents Examples.search429Env = ([], 4) := by
  have hc : 400 ≤ (Examples.count429Env 0).status := by decide
  have hs : ∀ i, (Examples.search429Env i).status = 429 ∨
      400 ≤ (Examples.search429Env i).status ∨ (Examples.search429Env i).payload = none := by
    intro i
    left
    rfl
  have h := claim_C1_amended_count_raises Examples.count429Env Examples.search429Env hc hs
  exact ⟨hc, h.1, h.2⟩

/-- Counterexample to claim C5: when the corrected-date retry is itself
rate limited, the outer retry loop re-runs the original request, receives
the recoverable 400 again, and issues the corrected-date request a second
time - so the corrected-date retry is not performed exactly once.  In
this trace the four requests are original, corrected, original,
corrected. -/
theorem claim_C5_corrected_retry_counterexample :
    ECFRApiClient.get_document_content Examples.contentEnvRepeat Examples.contentDate =
      (some (("corrected content").data),
        [Examples.contentDate, Examples.correctedDate,
          Examples.contentDate, Examples.correctedDate]) ∧
    (([Examples.contentDate, Examples.correctedDate, Examples.contentDate,
        Examples.correctedDate].filter (fun d => d == Examples.correctedDate)).length = 2) := by
  constructor
  · with_unfolding_all rfl
  · with_unfolding_all rfl

/-- Claim C5 amended: on an HTTP 400 whose body carries the recoverable
message and a parsable date, the handler issues exactly one
corrected-date request within that attempt, and when that request
succeeds its body is returned after exactly the two requests original,
corrected; but if the corrected-date request is rate limited or fails,
the outer retry loop re-runs the original request and may repeat the
corrected-date retry, up to the retry budget. -/
theorem claim_C5_amended_single_corrected_retry (env : Nat → ECFRApiClient.ContentResponse)
    (date d2 : List Char)
    (h0 : (env 0).status = 400)
    (hmsg : ECFRApiClient.containsSub ECFRApiClient.errMsgText (env 0).body = true)
    (hfind : ECFRApiClient.findDateAfter ECFRApiClient.dateMarkerText (env 0).body = some d2)
    (h1a : (env 1).status ≠ 429)
    (h1b : (env 1).status < 400) :
    ECFRApiClient.get_document_content env date = (some (env 1).body, [date, d2]) := by
  have h1c : ¬(400 ≤ (env 1).status) := Nat.not_le.mpr h1b
  simp [ECFRApiClient.get_document_content, ECFRApiClient.contentLoop,
    h0, hmsg, hfind, h1a, h1c]

/-- Witness for the amended C5 at an environment whose corrected-date
retry succeeds immediately. -/
theorem claim_C5_amended_single_corrected_retry_witness :
    ECFRApiClient.get_document_content Examples.contentEnvHappy Examples.contentDate =
      (some (("corrected content").data), [Examples.contentDate, Examples.correctedDate]) := by
  have h0 : (Examples.contentEnvHappy 0).status = 400 := by with_unfolding_all rfl
  have hmsg : ECFRApiClient.containsSub ECFRApiClient.errMsgText
      (Examples.contentEnvHappy 0).body = true := by with_unfolding_all rfl
  have hfind : ECFRApiClient.findDateAfter ECFRApiClient.dateMarkerText
      (Examples.contentEnvHappy 0).body = some Examples.correctedDate := by
    with_unfolding_all rfl
  have h1a : (Examples.contentEnvHappy 1).status ≠ 429 := by with_unfolding_all decide
  have h1b : (Examples.contentEnvHappy 1).status < 400 := by with_unfolding_all decide
  have h := claim_C5_amended_single_corrected_retry Examples.contentEnvHappy
    Examples.contentDate Examples.correctedDate h0 hmsg hfind h1a h1b
  exact h

theorem seqPages_first_fail (commitOk : Nat → Bool) (finalOk : Bool) (total k : Nat)
    (hfail : commitOk k = false) (hk2 : k < total) :
    ∀ fuel p st, st.current_page = p → p ≤ k →
      (∀ j, p ≤ j → j < k → commitOk j = true) → k < p + fuel →
      AppMain.seqPages commitOk finalOk total fuel p st =
        { current_page := k, is_complete := st.is_complete,
          committed_pages := st.committed_pages ++ List.range' p (k - p) } := by
  intro fuel
  induction fuel with
  | zero =>
    intro p st h1 h2 h3 h4
    omega
  | succ n ih =>
    intro p st h1 h2 h3 h4
    simp only [AppMain.seqPages]
    rw [if_neg (by omega : ¬ total ≤ p)]
    by_cases hpk : p = k
    · subst hpk
      rw [if_neg (by simp [hfail])]
      obtain ⟨cp, ic, com⟩ := st
      simp only [AppMain.ProgressRecord.mk.injEq] at h1 ⊢
      simp [h1]
    · have hcp : commitOk p = true := h3 p (Nat.le_refl p) (by omega)
      rw [if_pos hcp]
      rw [ih (p + 1) _ rfl (by omega) (fun j hj1 hj2 => h3 j (by omega) hj2) (by omega)]
      have hk : k - p = (k - (p + 1)) + 1 := by omega
      simp only [AppMain.ProgressRecord.mk.injEq]
      rw [hk, List.range'_succ]
      simp

/-- Counterexample to claim C2: in the get_agency_documents loop with
process_all, when the commit of page 0 fails (and is rolled back) the
loop continues, and the successful commit of page 1 persists the cursor
value 2; the run ends with current_page = 2 and is_complete = 2 although
page 0's writes were never committed, so a later resume skips page 0. -/
theorem claim_C2_page_skip_counterexample :
    (AppMain.get_agency_documents_process_all Examples.failPage0 true 2
        Examples.progress0).current_page = 2 ∧
    (AppMain.get_agency_documents_process_all Examples.failPage0 true 2
        Examples.progress0).committed_pages = [1] ∧
    (AppMain.get_agency_documents_process_all Examples.failPage0 true 2
        Examples.progress0).is_complete = 2 := by
  refine ⟨?_, ?_, ?_⟩ <;> with_unfolding_all rfl

/-- Claim C2 amended: each page's writes and its cursor advance are
staged in one transaction, so a failed commit by itself never advances
the persisted cursor (pageCommit leaves the record unchanged); in
process_agency_documents_sequential a failed commit moreover aborts the
run at the first failing page, leaving the cursor on that page with
exactly the earlier pages committed, so the next resume re-processes it.
In the get_agency_documents process_all loop, however, the loop continues
past a rolled-back page and a later successful commit advances the cursor
past it, skipping that page (see the counterexample). -/
theorem claim_C2_amended_no_advance_on_failed_commit (commitOk : Nat → Bool) (finalOk : Bool)
    (total k : Nat) (st0 : AppMain.ProgressRecord)
    (hfail : commitOk k = false) (hk1 : st0.current_page ≤ k) (hk2 : k < total)
    (hprev : ∀ j, st0.current_page ≤ j → j < k → commitOk j = true) :
    (∀ st p, commitOk p = false → AppMain.pageCommit commitOk st p = st) ∧
    (AppMain.process_agency_documents_sequential true commitOk finalOk total st0).current_page
      = k ∧
    (AppMain.process_agency_documents_sequential true commitOk finalOk total st0).committed_pages
      = st0.committed_pages ++ List.range' st0.current_page (k - st0.current_page) ∧
    (AppMain.process_agency_documents_sequential true commitOk finalOk total st0).is_complete
      = 1 := by
  have hrun : AppMain.process_agency_documents_sequential true commitOk finalOk total st0 =
      { current_page := k, is_complete := 1,
        committed_pages := st0.committed_pages ++
          List.range' st0.current_page (k - st0.current_page) } := by
    unfold AppMain.process_agency_documents_sequential
    rw [if_pos rfl]
    exact seqPages_first_fail commitOk finalOk total k hfail hk2
      (total - st0.current_page) st0.current_page _ rfl hk1 hprev (by omega)
  refine ⟨?_, ?_, ?_, ?_⟩
  · intro st p hp
    unfold AppMain.pageCommit
    rw [if_neg (by simp [hp])]
  · rw [hrun]
  · rw [hrun]
  · rw [hrun]

/-- Witness for the amended C2: page 0 fails to commit immediately, and
the sequential run ends with the cursor still on page 0, nothing
committed and the record still in progress. -/
theorem claim_C2_amended_no_advance_on_failed_commit_witness :
    Examples.failPage0 0 = false ∧
    (AppMain.process_agency_documents_sequential true Examples.failPage0 true 2
        Examples.progress0).current_page = 0 ∧
    (AppMain.process_agency_documents_sequential true Examples.failPage0 true 2
        Examples.progress0).committed_pages = [] ∧
    (AppMain.process_agency_documents_sequential true Examples.failPage0 true 2
        Examples.progress0).is_complete = 1 := by
  have hfail : Examples.failPage0 0 = false := by decide
  have h := claim_C2_amended_no_advance_on_failed_commit Examples.failPage0 true 2 0
    Examples.progress0 hfail (by decide) (by decide) (fun j hj1 hj2 => by omega)
  exact ⟨hfail, h.2.1, by simpa using h.2.2.1, h.2.2.2⟩

/-- Claim C9: after waiting on its worker pool, the concurrent ingestion
run unconditionally sets the progress record to current_page =
total_pages and is_complete = 2, whatever subset of pages the workers
managed to commit (failed pages are caught inside the worker and roll
back only their own writes); a later resume therefore starts past every
page and re-processes none of the failed ones. -/
theorem claim_C9_concurrent_marks_complete (pageOk : Nat → Bool) (total : Nat)
    (st0 : AppMain.ProgressRecord) :
    AppMain.process_agency_documents_concurrent true pageOk true total st0 =
      { current_page := total, is_complete := 2,
        committed_pages := st0.committed_pages ++
          (List.range' st0.current_page (total - st0.current_page)).filter pageOk } ∧
    List.range'
      (AppMain.process_agency_documents_concurrent true pageOk true total st0).current_page
      (total -
        (AppMain.process_agency_documents_concurrent true pageOk true total st0).current_page)
      = [] := by
  have h : AppMain.process_agency_documents_concurrent true pageOk true total st0 =
      { current_page := total, is_complete := 2,
        committed_pages := st0.committed_pages ++
          (List.range' st0.current_page (total - st0.current_page)).filter pageOk } := rfl
  refine ⟨h, ?_⟩
  rw [h]
  simp

/-- Claim C3 amended: ingestion's get_and_store_document_content only
ever writes DocumentContent rows and the descriptor status; it never
creates or updates a Document row, for any input state. -/
theorem claim_C3_amended_no_document_row (descriptor : AppMain.Descriptor) (agency_id : Nat)
    (fetchResult : Option (List Char)) (extractText : List Char → Option (List Char))
    (today : List Char) (db : AppMain.IngestDb) :
    (AppMain.get_and_store_document_content descriptor agency_id fetchResult extractText
        today db).2.2.documents = db.documents := by
  simp only [AppMain.get_and_store_document_content]
  repeat' split
  all_goals rfl

/-- Counterexample to claim C3: a first DocumentContent is produced for
the hierarchy title 40, chapter I, part 52 (the function returns true and
a content row is added), yet no Document row is created at all - in
particular none with identity "T40CIP52"; no such derivation exists in
the ingestion path. -/
theorem claim_C3_document_id_counterexample :
    (AppMain.get_and_store_document_content Examples.descriptor4052 7
        (some (("xmlbody").data)) (fun _ => none) (("2025-01-01").data)
        Examples.emptyIngestDb).1 = true ∧
    (AppMain.get_and_store_document_content Examples.descriptor4052 7
        (some (("xmlbody").data)) (fun _ => none) (("2025-01-01").data)
        Examples.emptyIngestDb).2.2.contents ≠ [] ∧
    (AppMain.get_and_store_document_content Examples.descriptor4052 7
        (some (("xmlbody").data)) (fun _ => none) (("2025-01-01").data)
        Examples.emptyIngestDb).2.2.documents = [] := by
  refine ⟨?_, ?_, ?_⟩
  · with_unfolding_all rfl
  · with_unfolding_all decide
  · with_unfolding_all rfl

theorem find?_append_of_none {α : Type} (p : α → Bool) (l1 l2 : List α)
    (h : l1.find? p = none) : (l1 ++ l2).find? p = l2.find? p := by
  induction l1 with
  | nil => simp
  | cons a t ih =>
    cases hpa : p a
    · simp only [List.cons_append, List.find?, hpa] at h ⊢
      exact ih h
    · simp [List.find?, hpa] at h

/-- Claim C4: compute_and_store_metrics is idempotent in its key.  If a
first invocation succeeds, an identical second invocation on the
resulting store returns the very same row with the store unchanged (so
when a row already exists for (document_id, metrics_date) it is returned
as-is and no second row is inserted), and the first invocation either
left the store untouched or appended exactly the returned row - stored
rows are never mutated. -/
theorem claim_C4_metrics_idempotent (sqrtFn : ℚ → ℚ) (insertOk insertOk2 : Bool)
    (db db1 : MetricsService.MetricsDb) (r : MetricsService.MetricsRow)
    (document_id agency_id : Nat) (content : Option (List Char))
    (document_content_id : Option Nat) (metrics_date : Option Nat) (now : Nat)
    (h : MetricsService.compute_and_store_metrics sqrtFn insertOk db document_id agency_id
        content document_content_id metrics_date now = Except.ok (db1, r)) :
    MetricsService.compute_and_store_metrics sqrtFn insertOk2 db1 document_id agency_id
        content document_content_id metrics_date now = Except.ok (db1, r) ∧
    db1.contents = db.contents ∧
    (db1.metrics = db.metrics ∨ db1.metrics = db.metrics ++ [r]) := by
  simp only [MetricsService.compute_and_store_metrics] at h ⊢
  split at h
  · exact absurd h (by simp)
  next hc1 =>
    rw [if_neg hc1]
    split at h
    next heqF => exact absurd h (by simp)
    next content2 heqF =>
      split at h
      next hc2 => exact absurd h (by simp)
      next hc2 =>
        split at h
        next hc3 => exact absurd h (by simp)
        next hc3 =>
          split at h
          next existing hfind =>
            obtain ⟨hdb, hr⟩ : db = db1 ∧ existing = r := by simpa using h
            subst hdb
            subst hr
            rw [heqF]
            refine ⟨?_, rfl, Or.inl rfl⟩
            dsimp only
            rw [if_neg hc2, if_neg hc3, hfind]
          next hfind =>
            split at h
            next hins =>
              obtain ⟨hdb, hr⟩ := Prod.mk.injEq .. ▸ (Except.ok.inj h)
              subst hdb
              subst hr
              refine ⟨?_, rfl, Or.inr rfl⟩
              dsimp only
              rw [heqF]
              dsimp only
              rw [if_neg hc2, if_neg hc3, find?_append_of_none _ _ _ hfind]
              simp [List.find?]
            next hins => exact absurd h (by simp)

/-- Witness for C4: a first call on the empty store inserts the metrics
row for the example text, and an identical second call (even with a
failing insert path) returns the same row with the store unchanged. -/
theorem claim_C4_metrics_idempotent_witness :
    MetricsService.compute_and_store_metrics Examples.idSqrt true Examples.emptyMetricsDb 1 2
        (some Examples.fleschText) none (some 5) 9 =
      Except.ok (Examples.dbAfterInsert, Examples.insertedRow) ∧
    MetricsService.compute_and_store_metrics Examples.idSqrt false Examples.dbAfterInsert 1 2
        (some Examples.fleschText) none (some 5) 9 =
      Except.ok (Examples.dbAfterInsert, Examples.insertedRow) := by
  have h1 : MetricsService.compute_and_store_metrics Examples.idSqrt true
      Examples.emptyMetricsDb 1 2 (some Examples.fleschText) none (some 5) 9 =
      Except.ok (Examples.dbAfterInsert, Examples.insertedRow) := by
    with_unfolding_all rfl
  exact ⟨h1, (claim_C4_metrics_idempotent Examples.idSqrt true false Examples.emptyMetricsDb
    Examples.dbAfterInsert Examples.insertedRow 1 2 (some Examples.fleschText) none (some 5) 9
    h1).1⟩

theorem batchSlice_shift {α : Type} (l : List α) (bs : Nat) (hbs : 1 ≤ bs) (i : Nat) :
    MetricsService.batchSlice l bs (i + 1) = MetricsService.batchSlice (l.drop bs) bs i := by
  unfold MetricsService.batchSlice
  simp only [List.length_drop, Nat.succ_mul, List.drop_drop]
  rw [Nat.add_comm bs (i * bs)]
  by_cases hL : bs ≤ l.length
  · have hcond : (i * bs + bs < min (i * bs + bs + bs) l.length) ↔
        (i * bs < min (i * bs + bs) (l.length - bs)) := by omega
    have harg : min (i * bs + bs + bs) l.length - (i * bs + bs) =
        min (i * bs + bs) (l.length - bs) - i * bs := by omega
    rw [harg]
    by_cases hc : i * bs < min (i * bs + bs) (l.length - bs)
    · rw [if_pos (hcond.mpr hc), if_pos hc]
    · rw [if_neg (fun hh => hc (hcond.mp hh)), if_neg hc]
  · have h1 : ¬(i * bs + bs < min (i * bs + bs + bs) l.length) := by omega
    have h2 : ¬(i * bs < min (i * bs + bs) (l.length - bs)) := by omega
    rw [if_neg h1, if_neg h2]

theorem batchSlice_flatten {α : Type} (bs : Nat) (hbs : 1 ≤ bs) :
    ∀ (w : Nat) (l : List α), l.length ≤ w * bs →
      ((List.range w).filterMap (MetricsService.batchSlice l bs)).flatten = l := by
  intro w
  induction w with
  | zero =>
    intro l hl
    simp only [Nat.zero_mul, Nat.le_zero] at hl
    simp [List.length_eq_zero.mp hl]
  | succ n ih =>
    intro l hl
    by_cases hl0 : l = []
    · subst hl0
      have hz : ∀ i, MetricsService.batchSlice ([] : List α) bs i = none := by
        intro i
        unfold MetricsService.batchSlice
        simp
      have hfm : ∀ (L : List Nat), L.filterMap (MetricsService.batchSlice ([] : List α) bs) = [] := by
        intro L
        induction L with
        | nil => rfl
        | cons a t iht => simp [List.filterMap_cons, hz, iht]
      simp [hfm]
    · have hlen : 0 < l.length := List.length_pos.mpr hl0
      have h0 : MetricsService.batchSlice l bs 0 = some (l.take (min bs l.length)) := by
        unfold MetricsService.batchSlice
        simp only [Nat.zero_mul, Nat.zero_add, List.drop_zero, Nat.sub_zero]
        rw [if_pos (by omega)]
      have hcomp : (MetricsService.batchSlice l bs) ∘ Nat.succ =
          MetricsService.batchSlice (l.drop bs) bs := by
        funext i
        exact batchSlice_shift l bs hbs i
      have hdroplen : (l.drop bs).length ≤ n * bs := by
        rw [Nat.succ_mul] at hl
        simp only [List.length_drop]
        omega
      rw [List.range_succ_eq_map]
      simp only [List.filterMap_cons, h0, List.filterMap_map, hcomp]
      rw [List.flatten_cons, ih (l.drop bs) hdroplen]
      by_cases hbl : bs ≤ l.length
      · rw [min_eq_left hbl]
        exact List.take_append_drop bs l
      · have h1 : min bs l.length = l.length := by omega
        rw [h1, List.take_length, List.drop_eq_nil_of_le (by omega)]
        simp

theorem range_filterMap_getElem {α : Type} (bs : List α) :
    (List.range bs.length).filterMap (fun i => bs[i]?) = bs := by
  induction bs with
  | nil => simp
  | cons a t ih =>
    rw [List.length_cons, List.range_succ_eq_map]
    have hcomp : (fun i => (a :: t)[i]?) ∘ Nat.succ = fun i => t[i]? := by
      funext i
      simp
    simp only [List.filterMap_cons, List.getElem?_cons_zero, List.filterMap_map, hcomp, ih]

theorem length_filter_add_not {α : Type} (p : α → Bool) (l : List α) :
    (l.filter p).length + (l.filter (fun x => !p x)).length = l.length := by
  induction l with
  | nil => rfl
  | cons a t ih =>
    cases hpa : p a <;> simp [List.filter_cons, hpa] <;> omega

theorem ceil_div_cover (n w : Nat) (hw : 0 < w) (hn : 0 < n) :
    n ≤ w * ((n + w - 1) / w) := by
  have h2 : w * ((n + w - 1) / w) + (n + w - 1) % w = n + w - 1 :=
    Nat.div_add_mod (n + w - 1) w
  have hm : (n + w - 1) % w < w := Nat.mod_lt _ hw
  omega

/-- Claim C6: in compute_metrics_for_all_documents the worker count is
clamped to [1,10] and then to the item count; the batches are contiguous
slices of size ceil(n/workers) that together partition the discovery
list; and however the workers' results interleave, the run produces
exactly one result entry per item (success_count + error_count = n) with
no item processed twice. -/
theorem claim_C6_partition_and_counts {α : Type} (outcome : α → Bool) (workers : Nat)
    (items : List α) (order : List Nat) (hn : items ≠ [])
    (hperm : order.Perm (List.range
      (MetricsService.document_batches items
        (min (max 1 (min 10 workers)) items.length)).length)) :
    (1 ≤ min (max 1 (min 10 workers)) items.length ∧
      min (max 1 (min 10 workers)) items.length ≤ 10 ∧
      min (max 1 (min 10 workers)) items.length ≤ items.length) ∧
    (MetricsService.document_batches items
      (min (max 1 (min 10 workers)) items.length)).flatten = items ∧
    (MetricsService.compute_metrics_for_all_documents outcome workers items order).success_count
      + (MetricsService.compute_metrics_for_all_documents outcome workers items
          order).error_count = items.length ∧
    (MetricsService.compute_metrics_for_all_documents outcome workers items
      order).total_processed = items.length ∧
    (((MetricsService.compute_metrics_for_all_documents outcome workers items order).results
        ++ (MetricsService.compute_metrics_for_all_documents outcome workers items
            order).errors).map Prod.fst).Perm items := by
  have hlen : 0 < items.length := List.length_pos.mpr hn
  have hw21 : 1 ≤ min (max 1 (min 10 workers)) items.length := by omega
  have hw210 : min (max 1 (min 10 workers)) items.length ≤ 10 := by omega
  have hw2len : min (max 1 (min 10 workers)) items.length ≤ items.length := by omega
  have hbs1 : 1 ≤ (items.length + min (max 1 (min 10 workers)) items.length - 1) /
      min (max 1 (min 10 workers)) items.length := by
    rw [Nat.one_le_div_iff (by omega)]
    omega
  have hcov : items.length ≤ min (max 1 (min 10 workers)) items.length *
      ((items.length + min (max 1 (min 10 workers)) items.length - 1) /
        min (max 1 (min 10 workers)) items.length) :=
    ceil_div_cover items.length _ (by omega) hlen
  have hpart : (MetricsService.document_batches items
      (min (max 1 (min 10 workers)) items.length)).flatten = items := by
    simp only [MetricsService.document_batches]
    exact batchSlice_flatten _ hbs1 _ items hcov
  -- the result list produced by the run, as a permutation of one entry per item
  have h1 : (order.filterMap (fun i => (MetricsService.document_batches items
      (min (max 1 (min 10 workers)) items.length))[i]?)).Perm
      (MetricsService.document_batches items (min (max 1 (min 10 workers)) items.length)) := by
    have h := hperm.filterMap (fun i => (MetricsService.document_batches items
      (min (max 1 (min 10 workers)) items.length))[i]?)
    rw [range_filterMap_getElem] at h
    exact h
  have h3 : ((MetricsService.document_batches items
      (min (max 1 (min 10 workers)) items.length)).map
        (MetricsService.process_document_batch outcome)).flatten =
      items.map (fun it => (it, outcome it)) := by
    have hpdb : MetricsService.process_document_batch (α := α) outcome =
        List.map (fun it => (it, outcome it)) := by
      funext b
      rfl
    rw [hpdb, ← List.map_flatten, hpart]
  have hres : ((order.filterMap (fun i => (MetricsService.document_batches items
      (min (max 1 (min 10 workers)) items.length))[i]?)).map
        (MetricsService.process_document_batch outcome)).flatten.Perm
      (items.map (fun it => (it, outcome it))) := by
    have h2 := (h1.map (MetricsService.process_document_batch outcome)).flatten
    rw [h3] at h2
    exact h2
  refine ⟨⟨hw21, hw210, hw2len⟩, hpart, ?_, ?_, ?_⟩
  · simp only [MetricsService.compute_metrics_for_all_documents]
    rw [if_neg (by omega : ¬ items.length = 0)]
    have hc := length_filter_add_not (fun r => r.2)
      ((order.filterMap (fun i => (MetricsService.document_batches items
        (min (max 1 (min 10 workers)) items.length))[i]?)).map
          (MetricsService.process_document_batch outcome)).flatten
    have hlen2 := hres.length_eq
    rw [List.length_map] at hlen2
    dsimp only
    omega
  · simp only [MetricsService.compute_metrics_for_all_documents]
    rw [if_neg (by omega : ¬ items.length = 0)]
  · simp only [MetricsService.compute_metrics_for_all_documents]
    rw [if_neg (by omega : ¬ items.length = 0)]
    have hsplit := (List.filter_append_perm (fun r => r.2)
      ((order.filterMap (fun i => (MetricsService.document_batches items
        (min (max 1 (min 10 workers)) items.length))[i]?)).map
          (MetricsService.process_document_batch outcome)).flatten).map Prod.fst
    have hall := (hres.map Prod.fst)
    rw [List.map_map] at hall
    have hid : items.map (Prod.fst ∘ fun it => (it, outcome it)) = items := by
      have hfid : (Prod.fst ∘ fun it : α => (it, outcome it)) = id := by
        funext it
        rfl
      rw [hfid, List.map_id]
    rw [hid] at hall
    exact hsplit.trans hall

/-- Witness for C6: 37 pending items with workers = 5 (clamped to 5),
batches completing in reverse order, yield exactly 37 result entries
(success_count + error_count = 37). -/
theorem claim_C6_partition_and_counts_witness :
    (List.range 37 ≠ ([] : List Nat)) ∧
    (MetricsService.compute_metrics_for_all_documents (fun i => i % 2 == 0) 5 (List.range 37)
        ((List.range (MetricsService.document_batches (List.range 37)
          (min (max 1 (min 10 5)) (List.range 37).length)).length).reverse)).success_count
      + (MetricsService.compute_metrics_for_all_documents (fun i => i % 2 == 0) 5 (List.range 37)
        ((List.range (MetricsService.document_batches (List.range 37)
          (min (max 1 (min 10 5)) (List.range 37).length)).length).reverse)).error_count = 37 ∧
    (MetricsService.compute_metrics_for_all_documents (fun i => i % 2 == 0) 5 (List.range 37)
        ((List.range (MetricsService.document_batches (List.range 37)
          (min (max 1 (min 10 5)) (List.range 37).length)).length).reverse)).total_processed
      = 37 := by
  have hn : List.range 37 ≠ ([] : List Nat) := by decide
  have hperm := List.reverse_perm (List.range (MetricsService.document_batches (List.range 37)
    (min (max 1 (min 10 5)) (List.range 37).length)).length)
  have h := claim_C6_partition_and_counts (fun i => i % 2 == 0) 5 (List.range 37)
    ((List.range (MetricsService.document_batches (List.range 37)
      (min (max 1 (min 10 5)) (List.range 37).length)).length).reverse) hn hperm
  have hl : (List.range 37).length = 37 := by simp
  refine ⟨hn, ?_, ?_⟩
  · have hc := h.2.2.1
    rw [hl] at hc
    exact hc
  · have ht := h.2.2.2.1
    rw [hl] at ht
    exact ht
